import Mathlib

/-!
Verification of the AI-studio request orchestrator (`src/services/mockApi.ts`)
and local history store (`src/services/historyService.ts`) against their
natural-language specification.

The TypeScript sources are shallowly embedded: pure functions become Lean
functions, the `localStorage`-backed history store becomes explicit state
passing over a storage value, and the async retry loop of
`ApiClient.generateWithRetry` becomes a deterministic run function driven by
oracles for the backend outcomes and for the externally mutable client state
(the `requestId` counter and the abort flag) sampled at each suspension point.
-/

namespace AIStudio

/-- Record `GenerateResponse` from `mockApi.ts` (also the shape of a history item:
`HistoryItem extends GenerateResponse` adds nothing).  The TS `style` field is
a string union of five style names; it is embedded as a plain `String`. -/
structure GenerateResponse where
  id : String
  imageUrl : String
  prompt : String
  style : String
  createdAt : String
deriving DecidableEq, Repr

/-- From `historyService.ts`: `interface HistoryItem extends GenerateResponse {}`. -/
abbrev HistoryItem := GenerateResponse

/-- From `historyService.ts`: `const MAX_HISTORY_ITEMS = 5`. -/
def MAX_HISTORY_ITEMS : Nat := 5

/-- The value stored under the `ai-studio-history` key.  `JSON.stringify` of a
list of items followed by `JSON.parse` is the identity on arrays of
string-field records, so the serialized blob is embedded as the parsed value
it denotes; `corrupt` stands for any stored string that `JSON.parse` rejects,
`absent` for no (or an empty) stored string. -/
inductive StoredBlob
  | absent
  | corrupt
  | items (l : List HistoryItem)
deriving DecidableEq, Repr

/-- The browser `localStorage` as seen through the single history key.
`getThrows = true` models a storage whose `getItem` access raises. -/
structure LocalStorage where
  getThrows : Bool
  blob : StoredBlob
deriving DecidableEq, Repr

/-- Method `HistoryService.getHistory`: read the key, `JSON.parse` it, and return the
result; any exception (unavailable storage, unparseable JSON) is caught and
yields `[]`.  No per-entry validation is performed by the source. -/
def getHistory (s : LocalStorage) : List HistoryItem :=
  if s.getThrows then []
  else
    match s.blob with
    | .absent => []
    | .corrupt => []
    | .items l => l

/-- The read operation as a state transformer: `getHistory` performs no
`setItem` call, so the storage component of the result is the input storage. -/
def getHistoryOp (s : LocalStorage) : List HistoryItem × LocalStorage :=
  (getHistory s, s)

/-- Method `HistoryService.addToHistory`.  The success of the `localStorage.setItem`
call is decided by the `writeOk` oracle (quota exhaustion makes it throw in
the browser); a throwing write is caught by the surrounding `try`/`catch`,
which only logs, so the storage is left unchanged and nothing propagates.
The `historyUpdated` event dispatch has no effect on the store and is not
modelled. -/
def addToHistory (writeOk : List HistoryItem → Bool) (s : LocalStorage)
    (item : HistoryItem) : LocalStorage :=
  let history := getHistory s
  let filteredHistory := history.filter (fun h => h.id != item.id)
  let updatedHistory := item :: filteredHistory
  let trimmedHistory := updatedHistory.take MAX_HISTORY_ITEMS
  if writeOk trimmedHistory then { s with blob := .items trimmedHistory } else s

/-- A storage whose writes always succeed. -/
def writeAlwaysOk : List HistoryItem → Bool := fun _ => true

/-- The empty, available store. -/
def emptyStorage : LocalStorage := ⟨false, .absent⟩

/-- A sequence of `add` calls against an available store with succeeding
writes, starting from the empty store. -/
def runAdds (adds : List HistoryItem) : LocalStorage :=
  adds.foldl (addToHistory writeAlwaysOk) emptyStorage

/-- Follows the spec's words (4.2): a result is valid when all fields are
present and `id`, `imageUrl`, `style` are non-empty strings.  Field presence
is enforced by the record type; `historyService.ts` itself implements no such
check. -/
def specIsValidResult (r : HistoryItem) : Bool :=
  r.id != "" && r.imageUrl != "" && r.style != ""

/-- Follows the spec's words (4.2): on a quota-failed write, retry exactly
once keeping only the single most recent entry, and leave storage unchanged
if the retry also fails.  `historyService.ts` implements no such recovery;
this definition exists only to be compared with `addToHistory`. -/
def specAddWithRecovery (writeOk : List HistoryItem → Bool) (s : LocalStorage)
    (item : HistoryItem) : LocalStorage :=
  let trimmed := (item :: (getHistory s).filter (fun h => h.id != item.id)).take MAX_HISTORY_ITEMS
  if writeOk trimmed then { s with blob := .items trimmed }
  else if writeOk [item] then { s with blob := .items [item] }
  else s

/-- One `add` step on the in-memory list: remove the id, prepend, trim to 5. -/
def addOne (item : HistoryItem) (h : List HistoryItem) : List HistoryItem :=
  (item :: h.filter (fun y => y.id != item.id)).take MAX_HISTORY_ITEMS

/-- Keep-first deduplication by `id`: the first occurrence of each id in the
input survives, in order.  Applied to the reversed add sequence it yields the
most-recent-first view of the distinct ids. -/
def dedupById : List HistoryItem → List HistoryItem
  | [] => []
  | x :: xs => x :: dedupById (xs.filter (fun y => y.id != x.id))
termination_by l => l.length
decreasing_by
  simp only [List.length_cons]
  exact Nat.lt_succ_of_le (List.length_filter_le _ _)

theorem getHistory_addToHistory_ok (s : LocalStorage) (item : HistoryItem)
    (hs : s.getThrows = false) :
    getHistory (addToHistory writeAlwaysOk s item) = addOne item (getHistory s) := by
  simp [addToHistory, writeAlwaysOk, addOne, getHistory, hs]

theorem addToHistory_ok_getThrows (s : LocalStorage) (item : HistoryItem) :
    (addToHistory writeAlwaysOk s item).getThrows = s.getThrows := by
  simp [addToHistory, writeAlwaysOk]

theorem mem_of_mem_dedupById (l : List HistoryItem) (y : HistoryItem)
    (h : y ∈ dedupById l) : y ∈ l := by
  match l with
  | [] => simp [dedupById] at h
  | x :: xs =>
    rw [dedupById] at h
    rcases List.mem_cons.mp h with h1 | h2
    · exact h1 ▸ List.mem_cons_self x xs
    · exact List.mem_cons_of_mem x
        (List.mem_of_mem_filter (mem_of_mem_dedupById _ y h2))
termination_by l.length
decreasing_by
  simp only [List.length_cons]
  exact Nat.lt_succ_of_le (List.length_filter_le _ _)

theorem pairwise_dedupById (l : List HistoryItem) :
    List.Pairwise (fun a b => a.id ≠ b.id) (dedupById l) := by
  match l with
  | [] => simp [dedupById]
  | x :: xs =>
    rw [dedupById]
    refine List.pairwise_cons.mpr ⟨?_, pairwise_dedupById _⟩
    intro y hy
    have hmem := mem_of_mem_dedupById _ y hy
    have hp : (y.id != x.id) = true := (List.mem_filter.mp hmem).2
    have : y.id ≠ x.id := by simpa using hp
    exact fun hxy => this hxy.symm
termination_by l.length
decreasing_by
  simp only [List.length_cons]
  exact Nat.lt_succ_of_le (List.length_filter_le _ _)

theorem dedupById_filter (a : String) (l : List HistoryItem) :
    dedupById (l.filter (fun y => y.id != a))
      = (dedupById l).filter (fun y => y.id != a) := by
  match l with
  | [] => simp [dedupById]
  | x :: xs =>
    by_cases hx : x.id = a
    · have hfx : (x.id != a) = false := by simp [hx]
      have hqp : (fun y : HistoryItem => y.id != x.id)
          = (fun y : HistoryItem => y.id != a) := by
        funext y; rw [hx]
      rw [List.filter_cons, hfx]
      simp only [Bool.false_eq_true, if_false]
      rw [dedupById, List.filter_cons, hfx]
      simp only [Bool.false_eq_true, if_false]
      rw [hqp]
      symm
      rw [List.filter_eq_self]
      intro y hy
      exact (List.mem_filter.mp (mem_of_mem_dedupById _ y hy)).2
    · have hpx : (x.id != a) = true := by simpa using hx
      rw [List.filter_cons, hpx]
      simp only [if_true]
      rw [dedupById, dedupById, List.filter_cons, hpx]
      simp only [if_true]
      congr 1
      have hswap : (xs.filter (fun y => y.id != a)).filter
            (fun y => y.id != x.id)
          = (xs.filter (fun y => y.id != x.id)).filter
            (fun y => y.id != a) := by
        rw [List.filter_filter, List.filter_filter]
        congr 1
        funext y
        exact Bool.and_comm _ _
      rw [hswap, dedupById_filter a (xs.filter (fun y => y.id != x.id))]
termination_by l.length
decreasing_by
  simp only [List.length_cons]
  exact Nat.lt_succ_of_le (List.length_filter_le _ _)

theorem filter_take_succ_of_pairwise (a : String) (M : List HistoryItem) :
    ∀ (k : Nat), List.Pairwise (fun x y => x.id ≠ y.id) M →
    ((M.take (k+1)).filter (fun y => y.id != a)).take k
      = (M.filter (fun y => y.id != a)).take k := by
  induction M with
  | nil => simp
  | cons y M' ih =>
    intro k hp
    rw [List.take_succ_cons, List.filter_cons, List.filter_cons]
    by_cases hy : (y.id != a) = true
    · rw [hy]
      simp only [if_true]
      cases k with
      | zero => simp
      | succ k' =>
        rw [List.take_succ_cons, List.take_succ_cons]
        congr 1
        exact ih k' (List.Pairwise.of_cons hp)
    · have hya : y.id = a := by simpa using hy
      have hall : ∀ z ∈ M', (z.id != a) = true := by
        intro z hz
        have hne : y.id ≠ z.id := (List.pairwise_cons.mp hp).1 z hz
        have : z.id ≠ a := fun hz2 => hne (hya.trans hz2.symm)
        simpa using this
      have hall2 : ∀ z ∈ M'.take k, (z.id != a) = true :=
        fun z hz => hall z (List.mem_of_mem_take hz)
      rw [Bool.not_eq_true] at hy
      rw [hy]
      simp only [Bool.false_eq_true, if_false]
      rw [List.filter_eq_self.mpr hall, List.filter_eq_self.mpr hall2,
        List.take_take]
      simp

theorem foldr_addOne_eq (l : List HistoryItem) :
    l.foldr addOne [] = (dedupById l).take MAX_HISTORY_ITEMS := by
  induction l with
  | nil => simp [dedupById]
  | cons x xs ih =>
    rw [List.foldr_cons, ih, dedupById]
    show (x :: ((dedupById xs).take 5).filter
        (fun y => y.id != x.id)).take 5
      = (x :: dedupById (xs.filter (fun y => y.id != x.id))).take 5
    rw [List.take_succ_cons, List.take_succ_cons]
    congr 1
    have hB := filter_take_succ_of_pairwise x.id (dedupById xs) 4
      (pairwise_dedupById xs)
    rw [show (4 + 1 : Nat) = 5 from rfl] at hB
    rw [hB, ← dedupById_filter]

theorem getHistory_foldl (adds : List HistoryItem) :
    ∀ (s : LocalStorage), s.getThrows = false →
    getHistory (adds.foldl (addToHistory writeAlwaysOk) s)
      = adds.foldl (fun h i => addOne i h) (getHistory s) := by
  induction adds with
  | nil => intro s _; simp
  | cons a rest ih =>
    intro s hs
    rw [List.foldl_cons, List.foldl_cons,
      ih _ (by rw [addToHistory_ok_getThrows]; exact hs),
      getHistory_addToHistory_ok s a hs]

theorem getHistory_runAdds (adds : List HistoryItem) :
    getHistory (runAdds adds)
      = (dedupById adds.reverse).take MAX_HISTORY_ITEMS := by
  have h1 : getHistory (runAdds adds)
      = adds.foldl (fun h i => addOne i h) [] := by
    rw [runAdds, getHistory_foldl adds emptyStorage rfl]
    rfl
  rw [h1, ← List.foldr_reverse, foldr_addOne_eq]

theorem mapId_filter (a : String) (xs : List HistoryItem) :
    (xs.filter (fun y => y.id != a)).map GenerateResponse.id
      = (xs.map GenerateResponse.id).filter (fun i => i != a) := by
  induction xs with
  | nil => simp
  | cons y ys ih =>
    by_cases h : (y.id != a) = true
    · simp only [List.filter_cons, List.map_cons, h, if_true]
      rw [ih]
    · rw [Bool.not_eq_true] at h
      simp only [List.filter_cons, List.map_cons, h, Bool.false_eq_true,
        if_false]
      exact ih

theorem dedupById_length (l : List HistoryItem) :
    (dedupById l).length = (l.map GenerateResponse.id).toFinset.card := by
  match l with
  | [] => simp [dedupById]
  | x :: xs =>
    rw [dedupById]
    simp only [List.length_cons, List.map_cons, List.toFinset_cons]
    rw [dedupById_length (xs.filter _), mapId_filter]
    have htf : ((xs.map GenerateResponse.id).filter (fun i => i != x.id)).toFinset
        = (xs.map GenerateResponse.id).toFinset.erase x.id := by
      rw [List.toFinset_filter]
      ext b
      simp [Finset.mem_filter, Finset.mem_erase, and_comm]
    rw [htf]
    by_cases hx : x.id ∈ (xs.map GenerateResponse.id).toFinset
    · rw [Finset.insert_eq_self.mpr hx, Finset.card_erase_of_mem hx]
      have hpos : 0 < (xs.map GenerateResponse.id).toFinset.card :=
        Finset.card_pos.mpr ⟨x.id, hx⟩
      omega
    · rw [Finset.card_insert_of_not_mem hx, Finset.erase_eq_of_not_mem hx]
termination_by l.length
decreasing_by
  simp only [List.length_cons]
  exact Nat.lt_succ_of_le (List.length_filter_le _ _)

theorem length_filter_of_mem_pairwise (a : String) (H : List HistoryItem) :
    List.Pairwise (fun x y => x.id ≠ y.id) H →
    a ∈ H.map GenerateResponse.id →
    (H.filter (fun y => y.id != a)).length + 1 = H.length := by
  induction H with
  | nil => intro _ hm; simp at hm
  | cons y H' ih =>
    intro hp hm
    by_cases hy : y.id = a
    · have hall : ∀ z ∈ H', (z.id != a) = true := by
        intro z hz
        have hne : y.id ≠ z.id := (List.pairwise_cons.mp hp).1 z hz
        have : z.id ≠ a := fun h2 => hne (hy.trans h2.symm)
        simpa using this
      have hfy : (y.id != a) = false := by simp [hy]
      rw [List.filter_cons, hfy]
      simp only [Bool.false_eq_true, if_false]
      rw [List.filter_eq_self.mpr hall]
      simp
    · have hpy : (y.id != a) = true := by simpa using hy
      rw [List.filter_cons, hpy]
      simp only [if_true, List.length_cons]
      rw [List.map_cons] at hm
      have hm' : a ∈ H'.map GenerateResponse.id := by
        rcases List.mem_cons.mp hm with h1 | h2
        · exact absurd h1.symm hy
        · exact h2
      have := ih (List.Pairwise.of_cons hp) hm'
      omega

theorem addOne_of_mem (H : List HistoryItem) (i : HistoryItem)
    (hp : List.Pairwise (fun x y => x.id ≠ y.id) H)
    (hlen : H.length ≤ MAX_HISTORY_ITEMS)
    (hm : i.id ∈ H.map GenerateResponse.id) :
    addOne i H = i :: H.filter (fun y => y.id != i.id)
      ∧ (addOne i H).length = H.length := by
  have hflen := length_filter_of_mem_pairwise i.id H hp hm
  have hle : (i :: H.filter (fun y => y.id != i.id)).length
      ≤ MAX_HISTORY_ITEMS := by
    simp only [List.length_cons]
    omega
  refine ⟨?_, ?_⟩
  · rw [addOne]; exact List.take_of_length_le hle
  · rw [addOne, List.take_of_length_le hle]
    simp only [List.length_cons]
    omega

theorem runAdds_getThrows (adds : List HistoryItem) :
    (runAdds adds).getThrows = false := by
  have haux : ∀ (l : List HistoryItem) (s : LocalStorage),
      s.getThrows = false →
      (l.foldl (addToHistory writeAlwaysOk) s).getThrows = false := by
    intro l
    induction l with
    | nil => intro s hs; exact hs
    | cons a rest ih =>
      intro s hs
      rw [List.foldl_cons]
      exact ih _ (by rw [addToHistory_ok_getThrows]; exact hs)
  exact haux adds emptyStorage rfl

/-- C2: starting from an empty store, after any sequence of `add` calls with
valid results, `list()` equals the first five entries of the reversed add
sequence deduplicated by id keeping the first (most recent) occurrence — i.e.
it is ordered most-recent-first; its length is `min(#distinct ids, 5)`, hence
at most 5; its ids are pairwise distinct; and re-adding an id that is present
moves that entry to the front without changing the length. -/
theorem c2_history_invariant (adds : List HistoryItem)
    (_hvalid : ∀ i ∈ adds, specIsValidResult i = true) :
    getHistory (runAdds adds)
      = (dedupById adds.reverse).take MAX_HISTORY_ITEMS
    ∧ (getHistory (runAdds adds)).length
      = min ((adds.map GenerateResponse.id).toFinset.card) MAX_HISTORY_ITEMS
    ∧ (getHistory (runAdds adds)).length ≤ MAX_HISTORY_ITEMS
    ∧ List.Pairwise (fun a b => a.id ≠ b.id) (getHistory (runAdds adds))
    ∧ ∀ i : HistoryItem,
        i.id ∈ (getHistory (runAdds adds)).map GenerateResponse.id →
        getHistory (addToHistory writeAlwaysOk (runAdds adds) i)
          = i :: (getHistory (runAdds adds)).filter (fun y => y.id != i.id)
        ∧ (getHistory (addToHistory writeAlwaysOk (runAdds adds) i)).length
          = (getHistory (runAdds adds)).length := by
  have hchar := getHistory_runAdds adds
  have hlen : (getHistory (runAdds adds)).length
      = min ((adds.map GenerateResponse.id).toFinset.card) MAX_HISTORY_ITEMS := by
    rw [hchar, List.length_take, dedupById_length]
    rw [List.map_reverse, List.toFinset_reverse]
    exact Nat.min_comm _ _
  have hle : (getHistory (runAdds adds)).length ≤ MAX_HISTORY_ITEMS := by
    rw [hchar, List.length_take]
    exact Nat.min_le_left _ _
  have hpw : List.Pairwise (fun a b => a.id ≠ b.id) (getHistory (runAdds adds)) := by
    rw [hchar]
    exact (pairwise_dedupById adds.reverse).sublist (List.take_sublist _ _)
  refine ⟨hchar, hlen, hle, hpw, ?_⟩
  intro i hm
  rw [getHistory_addToHistory_ok _ i (runAdds_getThrows adds)]
  exact addOne_of_mem _ i hpw hle hm

/-- Concrete adds for the C2 witness. -/
def c2adds : List HistoryItem :=
  [⟨"a", "ua", "pa", "editorial", "ta"⟩, ⟨"b", "ub", "pb", "vintage", "tb"⟩]

theorem c2_history_invariant_witness :
    (∀ i ∈ c2adds, specIsValidResult i = true)
    ∧ (getHistory (runAdds c2adds)
        = (dedupById c2adds.reverse).take MAX_HISTORY_ITEMS
      ∧ (getHistory (runAdds c2adds)).length
        = min ((c2adds.map GenerateResponse.id).toFinset.card) MAX_HISTORY_ITEMS
      ∧ (getHistory (runAdds c2adds)).length ≤ MAX_HISTORY_ITEMS
      ∧ List.Pairwise (fun a b => a.id ≠ b.id) (getHistory (runAdds c2adds))
      ∧ ∀ i : HistoryItem,
          i.id ∈ (getHistory (runAdds c2adds)).map GenerateResponse.id →
          getHistory (addToHistory writeAlwaysOk (runAdds c2adds) i)
            = i :: (getHistory (runAdds c2adds)).filter (fun y => y.id != i.id)
          ∧ (getHistory (addToHistory writeAlwaysOk (runAdds c2adds) i)).length
            = (getHistory (runAdds c2adds)).length) :=
  ⟨by decide, c2_history_invariant c2adds (by decide)⟩

/-- C3 (amended): `getHistory` performs no per-entry validation and no
write-back: it returns exactly the parsed stored list (invalid entries
included) and leaves the storage untouched. -/
theorem c3_read_unvalidated_no_writeback :
    (∀ s : LocalStorage, (getHistoryOp s).2 = s)
    ∧ (∀ l : List HistoryItem,
        getHistoryOp ⟨false, .items l⟩ = (l, ⟨false, .items l⟩)) :=
  ⟨fun _ => rfl, fun _ => rfl⟩

/-- An entry that is invalid per the spec (empty `imageUrl`). -/
def badItem3 : HistoryItem := ⟨"bad3", "", "prompt3", "vintage", "t3"⟩

/-- C3 counterexample: with a stored entry whose `imageUrl` is empty, the
claim requires the read to drop it and write the cleaned set back; the code
returns the invalid entry unchanged and never writes. -/
theorem c3_counterexample :
    specIsValidResult badItem3 = false
    ∧ (getHistoryOp ⟨false, .items [badItem3]⟩).1 = [badItem3]
    ∧ (getHistoryOp ⟨false, .items [badItem3]⟩).1 ≠ [] := by decide

/-- C4 (amended): `add` performs no validation: a result that is invalid per
the spec is prepended, deduplicated and persisted exactly like a valid one,
and no error is surfaced (the operation is total). -/
theorem c4_add_no_validation (s : LocalStorage) (item : HistoryItem)
    (_hinv : specIsValidResult item = false) (hs : s.getThrows = false) :
    getHistory (addToHistory writeAlwaysOk s item)
      = (item :: (getHistory s).filter (fun h => h.id != item.id)).take
          MAX_HISTORY_ITEMS := by
  rw [getHistory_addToHistory_ok s item hs]
  rfl

/-- An invalid result (missing, i.e. empty, `imageUrl`) for C4. -/
def badItem4 : HistoryItem := ⟨"bad4", "", "prompt4", "minimalist", "t4"⟩

theorem c4_add_no_validation_witness :
    specIsValidResult badItem4 = false
    ∧ emptyStorage.getThrows = false
    ∧ getHistory (addToHistory writeAlwaysOk emptyStorage badItem4)
      = (badItem4 :: (getHistory emptyStorage).filter
          (fun h => h.id != badItem4.id)).take MAX_HISTORY_ITEMS :=
  ⟨by decide, rfl, c4_add_no_validation emptyStorage badItem4 (by decide) rfl⟩

/-- Another invalid result, for the C4 counterexample. -/
def badItem4b : HistoryItem := ⟨"bad4b", "", "prompt4b", "cyberpunk", "t4b"⟩

/-- C4 counterexample: the claim requires `add` of an invalid result to leave
`list()` unchanged; the code stores the invalid result. -/
theorem c4_counterexample :
    specIsValidResult badItem4b = false
    ∧ getHistory (addToHistory writeAlwaysOk emptyStorage badItem4b)
        ≠ getHistory emptyStorage := by decide

/-- C5 (amended): if the storage write performed by `add` fails, the store
performs no retry of any kind: the stored history is left unchanged and no
failure propagates to the caller. -/
theorem c5_add_write_failure_unchanged (writeOk : List HistoryItem → Bool)
    (s : LocalStorage) (item : HistoryItem)
    (hfail : writeOk ((item :: (getHistory s).filter
        (fun h => h.id != item.id)).take MAX_HISTORY_ITEMS) = false) :
    addToHistory writeOk s item = s := by
  simp only [addToHistory, hfail, Bool.false_eq_true, if_false]

/-- Item for the C5 witness. -/
def item5w : HistoryItem := ⟨"w5", "uw5", "pw5", "editorial", "tw5"⟩

theorem c5_add_write_failure_unchanged_witness :
    (fun _ : List HistoryItem => false)
        ((item5w :: (getHistory emptyStorage).filter
          (fun h => h.id != item5w.id)).take MAX_HISTORY_ITEMS) = false
    ∧ addToHistory (fun _ => false) emptyStorage item5w = emptyStorage :=
  ⟨rfl, c5_add_write_failure_unchanged (fun _ => false) emptyStorage item5w rfl⟩

/-- A write oracle modelling a quota that only admits a single stored entry. -/
def quotaWriteOk : List HistoryItem → Bool := fun l => decide (l.length ≤ 1)

/-- Items for the C5 counterexample. -/
def itemA5 : HistoryItem := ⟨"a5", "ua5", "pa5", "editorial", "ta5"⟩

/-- Items for the C5 counterexample. -/
def itemB5 : HistoryItem := ⟨"b5", "ub5", "pb5", "vintage", "tb5"⟩

/-- C5 counterexample: under a quota admitting one entry, adding to a store
holding one entry fails the two-entry write; the claimed recovery (retry once
with only the most recent entry) would store the new entry, but the code
leaves the old store unchanged. -/
theorem c5_counterexample :
    getHistory (addToHistory quotaWriteOk ⟨false, .items [itemA5]⟩ itemB5)
      = [itemA5]
    ∧ getHistory (specAddWithRecovery quotaWriteOk ⟨false, .items [itemA5]⟩
        itemB5) = [itemB5]
    ∧ getHistory (addToHistory quotaWriteOk ⟨false, .items [itemA5]⟩ itemB5)
      ≠ [itemB5] := by decide

/-- C6 (amended): `list()` is a total function returning `[]` when storage is
unavailable, empty, or unparseable; when storage holds a parseable list it
returns that list as-is (even if entries are invalid per the spec), most
recent first as stored. -/
theorem c6_list_graceful (s : LocalStorage) :
    (s.getThrows = true → getHistory s = [])
    ∧ (s.blob = .absent → getHistory s = [])
    ∧ (s.blob = .corrupt → getHistory s = [])
    ∧ (∀ l, s.blob = .items l → s.getThrows = false → getHistory s = l) := by
  refine ⟨?_, ?_, ?_, ?_⟩
  · intro h; simp [getHistory, h]
  · intro h; simp [getHistory, h]
  · intro h; simp [getHistory, h]
  · intro l h hg; simp [getHistory, h, hg]

/-- Item for the C6 witness. -/
def item6w : HistoryItem := ⟨"w6", "uw6", "pw6", "editorial", "tw6"⟩

theorem c6_list_graceful_witness :
    getHistory ⟨false, .corrupt⟩ = []
    ∧ getHistory ⟨true, .items [item6w]⟩ = []
    ∧ getHistory ⟨false, .items [item6w]⟩ = [item6w] :=
  ⟨(c6_list_graceful ⟨false, .corrupt⟩).2.2.1 rfl,
   (c6_list_graceful ⟨true, .items [item6w]⟩).1 rfl,
   (c6_list_graceful ⟨false, .items [item6w]⟩).2.2.2 [item6w] rfl rfl⟩

/-- An invalid stored entry for the C6 counterexample. -/
def badItem6 : HistoryItem := ⟨"bad6", "", "prompt6", "streetwear", "t6"⟩

/-- C6 counterexample: storage holding parseable JSON with an invalid entry is
claimed to yield the empty sequence; the code returns the entry. -/
theorem c6_counterexample :
    specIsValidResult badItem6 = false
    ∧ getHistory ⟨false, .items [badItem6]⟩ = [badItem6]
    ∧ getHistory ⟨false, .items [badItem6]⟩ ≠ [] := by decide

/-- The errors thrown around `generateWithRetry` in `mockApi.ts`: one
constructor per error class declared there, plus `namedError n m` for a plain
`Error` whose `name` property is `n` and whose message is `m` (this covers
the `Model overloaded` error thrown by `generateImage` with `n = "Error"`,
and the timeout error built by `withTimeout`, a plain `Error` whose `name` is
set to `"TimeoutError"` — it is not an instance of the `TimeoutError`
class). -/
inductive GenError
  | abortError
  | timeoutClassError (msg : String)
  | validationError (msg : String)
  | networkError (msg : String)
  | serverError (msg : String)
  | namedError (nm msg : String)
deriving DecidableEq, Repr

/-- The `name` property of each error value. -/
def errName : GenError → String
  | .abortError => "AbortError"
  | .timeoutClassError _ => "TimeoutError"
  | .validationError _ => "ValidationError"
  | .networkError _ => "NetworkError"
  | .serverError _ => "ServerError"
  | .namedError n _ => n

/-- The `message` property of each error value (the `AbortError` constructor
default is `Request was cancelled`). -/
def errMessage : GenError → String
  | .abortError => "Request was cancelled"
  | .timeoutClassError m => m
  | .validationError m => m
  | .networkError m => m
  | .serverError m => m
  | .namedError _ m => m

/-- Models `String.prototype.includes` on the character lists of the strings. -/
def listContainsSub (pat : List Char) : List Char → Bool
  | [] => pat.isEmpty
  | a :: rest => pat.isPrefixOf (a :: rest) || listContainsSub pat rest

/-- Models `hay.includes(pat)` from `ErrorHandler.categorizeError`. -/
def strIncludes (hay pat : String) : Bool :=
  listContainsSub pat.toList hay.toList

/-- Record `ApiError` from `mockApi.ts`. -/
structure ApiError where
  message : String
  code : String
  userMessage : String
  retryable : Bool
deriving DecidableEq, Repr

/-- Method `ErrorHandler.categorizeError`: the `instanceof` cascade followed by the
message-substring checks; a `namedError` matches none of the `instanceof`
tests regardless of its `name`. -/
def categorizeError (e : GenError) : ApiError :=
  match e with
  | .abortError =>
      ⟨errMessage .abortError, "REQUEST_CANCELLED", "Request was cancelled",
        false⟩
  | .timeoutClassError m =>
      ⟨m, "REQUEST_TIMEOUT",
        "Request timed out. Please check your connection and try again.",
        true⟩
  | .validationError m =>
      ⟨m, "VALIDATION_ERROR", "Please check your inputs and try again.",
        false⟩
  | .networkError m =>
      ⟨m, "NETWORK_ERROR", "Network error. Please check your internet connection.",
        true⟩
  | .serverError m =>
      ⟨m, "SERVER_ERROR",
        "Server is experiencing issues. Please try again in a few moments.",
        true⟩
  | .namedError _ m =>
      if strIncludes m "Model overloaded" then
        ⟨m, "MODEL_OVERLOADED",
          "AI model is currently busy. Please wait a moment and try again.",
          true⟩
      else if strIncludes m "quota" || strIncludes m "rate limit" then
        ⟨m, "RATE_LIMITED",
          "Too many requests. Please wait a moment before trying again.",
          true⟩
      else
        ⟨m, "UNKNOWN_ERROR", "An unexpected error occurred. Please try again.",
          true⟩

/-- Method `ErrorHandler.isRetryableError`. -/
def isRetryableError (e : GenError) : Bool := (categorizeError e).retryable

/-- Method `ApiClient.calculateBackoffWithJitter`, over exact rationals in place of
JS doubles; `r` is the `Math.random()` draw in `[0,1)`.  The literal `0.25`
is the rational `1/4`. -/
def calculateBackoffWithJitter (attempt : Nat) (r : ℚ) : ℚ :=
  let baseDelay : ℚ := 2 ^ (attempt - 1) * 1000
  let jitter : ℚ := baseDelay * (1/4) * (r * 2 - 1)
  min (max (baseDelay + jitter) 100) 10000

/-- The externally mutable `ApiClient` state observed at a suspension point:
the current value of `this.requestId` and whether the current abort
controller's signal is aborted.  It changes only between turns of the event
loop (a newer `generateWithRetry` call increments `requestId` and installs a
fresh controller; `abort()` sets the current controller's flag). -/
structure World where
  reqId : Nat
  curAborted : Bool
deriving DecidableEq, Repr

/-- Resolution of `withTimeout(generateImage(request, signal), 30000)` for
one attempt: the mock backend's response, or a raised error (the overloaded
error, an `AbortError` if the signal aborted during the simulated delay, or
the named timeout error from `withTimeout`). -/
inductive BackendOutcome
  | success (r : GenerateResponse)
  | failure (e : GenError)
deriving DecidableEq, Repr

/-- How one `generateWithRetry` promise settles. -/
inductive SubmitOutcome
  | ok (r : GenerateResponse)
  | thrown (e : GenError)
deriving DecidableEq, Repr

/-- Trace of one `generateWithRetry` call: its settlement, the number of
backend attempts issued, and the attempt numbers after which a backoff wait
was started. -/
structure RunResult where
  outcome : SubmitOutcome
  attempts : Nat
  waits : List Nat
deriving DecidableEq, Repr

/-- The retry loop's abort test on a caught error:
`error instanceof AbortError || (error as Error).name === 'AbortError'`. -/
def errIsAbortCheck (e : GenError) : Bool :=
  (match e with
    | .abortError => true
    | _ => false) || errName e == "AbortError"

/-- Models `throw lastError || new Error('Unknown error occurred')`. -/
def unknownError : GenError := .namedError "Error" "Unknown error occurred"

/-- One traversal of the `for` loop of `generateWithRetry`, from attempt `k`
with `fuel` loop iterations remaining (`fuel + 1 = maxAttempts - k + 1`
links them at entry), entering world `ew` — the client state in the
synchronous turn that starts the iteration.  `o k` is the resolution of
attempt `k`'s awaited race; `w k` is the client state in the turn that
resolution is processed (the post-success supersession check, the `catch`
block, and the start of `waitWithAbortCheck` all run in that same turn);
`v k` is the client state when the backoff wait after attempt `k` ends or is
interrupted.  `att` counts backend calls issued, `ws` records the attempts
after which a backoff wait was started, and `le` is `lastError`. -/
def runAux (c : Nat) (o : Nat → BackendOutcome) (w v : Nat → World) :
    Nat → Nat → World → Nat → List Nat → Option GenError → RunResult
  | 0, _, _, att, ws, le => ⟨.thrown (le.getD unknownError), att, ws⟩
  | fuel + 1, k, ew, att, ws, _le =>
    if ew.curAborted then ⟨.thrown .abortError, att, ws⟩
    else if ew.reqId != c then ⟨.thrown .abortError, att, ws⟩
    else
      match o k with
      | .success r =>
        if (w k).reqId != c then ⟨.thrown .abortError, att + 1, ws⟩
        else ⟨.ok r, att + 1, ws⟩
      | .failure e =>
        if errIsAbortCheck e || (w k).reqId != c || !(isRetryableError e) then
          ⟨.thrown e, att + 1, ws⟩
        else if fuel == 0 then ⟨.thrown e, att + 1, ws⟩
        else if (w k).reqId != c then ⟨.thrown .abortError, att + 1, ws ++ [k]⟩
        else if (v k).curAborted then ⟨.thrown .abortError, att + 1, ws ++ [k]⟩
        else runAux c o w v fuel (k + 1) (v k) (att + 1) (ws ++ [k]) (some e)

/-- Method `ApiClient.generateWithRetry` with captured sequence number `c`: at entry
`++this.requestId` makes the global counter equal `c` and installs a fresh,
unaborted controller, and the first iteration starts in that same turn, so
the first entering world is `⟨c, false⟩`. -/
def generateWithRetryRun (c maxAttempts : Nat) (o : Nat → BackendOutcome)
    (w v : Nat → World) : RunResult :=
  runAux c o w v maxAttempts 1 ⟨c, false⟩ 0 [] none

/-- The `ApiClient.abortController` field: `none` models `null`, `some b` a
controller whose signal has `aborted = b`. -/
abbrev CtrlState := Option Bool

/-- Method `ApiClient.isGenerating`:
`this.abortController !== null && !this.abortController.signal.aborted`. -/
def isGenerating : CtrlState → Bool
  | none => false
  | some aborted => !aborted

/-- Start of `generateWithRetry`:
`this.abortController = new AbortController()`. -/
def submitStartCtrl (_st : CtrlState) : CtrlState := some false

/-- Method `ApiClient.abort`: aborts the current controller if one exists. -/
def abortCtrl : CtrlState → CtrlState
  | none => none
  | some _ => some true

/-- Settlement of the `generateWithRetry` promise (success or throw): the
source neither clears nor aborts `this.abortController` when it settles. -/
def resolveCtrl (st : CtrlState) : CtrlState := st

theorem runAux_advance (c : Nat) (o : Nat → BackendOutcome) (w v : Nat → World)
    (e : Nat → GenError) :
    ∀ (steps k fuel att : Nat) (ws : List Nat) (le : Option GenError),
    (∀ i, k ≤ i → i < k + steps → o i = .failure (e i)) →
    (∀ i, k ≤ i → i < k + steps → errIsAbortCheck (e i) = false) →
    (∀ i, k ≤ i → i < k + steps → isRetryableError (e i) = true) →
    (∀ i, k ≤ i → i < k + steps → w i = ⟨c, false⟩ ∧ v i = ⟨c, false⟩) →
    steps < fuel →
    ∃ le2, runAux c o w v fuel k ⟨c, false⟩ att ws le
      = runAux c o w v (fuel - steps) (k + steps) ⟨c, false⟩ (att + steps)
          (ws ++ List.range' k steps) le2 := by
  intro steps
  induction steps with
  | zero =>
    intro k fuel att ws le _ _ _ _ _
    exact ⟨le, by simp [List.range']⟩
  | succ s ih =>
    intro k fuel att ws le ho ha hr hw hlt
    obtain ⟨f2, rfl⟩ : ∃ f2, fuel = f2 + 1 + 1 := ⟨fuel - 2, by omega⟩
    have hok : o k = .failure (e k) := ho k (Nat.le_refl k) (by omega)
    have hak : errIsAbortCheck (e k) = false := ha k (Nat.le_refl k) (by omega)
    have hrk : isRetryableError (e k) = true := hr k (Nat.le_refl k) (by omega)
    have hwk : w k = ⟨c, false⟩ := (hw k (Nat.le_refl k) (by omega)).1
    have hvk : v k = ⟨c, false⟩ := (hw k (Nat.le_refl k) (by omega)).2
    have hstep : runAux c o w v (f2 + 1 + 1) k ⟨c, false⟩ att ws le
        = runAux c o w v (f2 + 1) (k + 1) ⟨c, false⟩ (att + 1)
            (ws ++ [k]) (some (e k)) := by
      rw [runAux]
      simp only [bne_self_eq_false, Bool.false_eq_true, if_false, hok, hak,
        hrk, hwk, hvk, Bool.not_true, Bool.false_or, Bool.or_false]
      simp
    rw [hstep]
    obtain ⟨le2, hrest⟩ := ih (k + 1) (f2 + 1) (att + 1) (ws ++ [k])
      (some (e k))
      (fun i h1 h2 => ho i (by omega) (by omega))
      (fun i h1 h2 => ha i (by omega) (by omega))
      (fun i h1 h2 => hr i (by omega) (by omega))
      (fun i h1 h2 => hw i (by omega) (by omega))
      (by omega)
    refine ⟨le2, ?_⟩
    rw [hrest]
    have h1 : f2 + 1 - s = f2 + 1 + 1 - (s + 1) := by omega
    have h2 : k + 1 + s = k + (s + 1) := by omega
    have h3 : att + 1 + s = att + (s + 1) := by omega
    have h4 : (ws ++ [k]) ++ List.range' (k + 1) s
        = ws ++ List.range' k (s + 1) := by
      rw [List.append_assoc]
      rfl
    rw [h1, h2, h3, h4]

theorem runAux_ok (c : Nat) (o : Nat → BackendOutcome) (w v : Nat → World)
    (r : GenerateResponse) :
    ∀ (fuel k att : Nat) (ew : World) (ws : List Nat) (le : Option GenError),
    (runAux c o w v fuel k ew att ws le).outcome = .ok r →
    ∃ j, k ≤ j
      ∧ (runAux c o w v fuel k ew att ws le).attempts = att + (j - k) + 1
      ∧ (w j).reqId = c ∧ o j = .success r := by
  intro fuel
  induction fuel with
  | zero => intro k att ew ws le h; simp [runAux] at h
  | succ f ih =>
    intro k att ew ws le h
    by_cases h1 : ew.curAborted = true
    · simp only [runAux, h1, if_true] at h
      simp at h
    · rw [Bool.not_eq_true] at h1
      by_cases h2 : (ew.reqId != c) = true
      · simp only [runAux, h1, h2, Bool.false_eq_true, if_false, if_true] at h
        simp at h
      · rw [Bool.not_eq_true] at h2
        cases hok : o k with
        | success r2 =>
          by_cases h3 : ((w k).reqId != c) = true
          · simp only [runAux, h1, h2, hok, h3, Bool.false_eq_true, if_false,
              if_true] at h
            simp at h
          · rw [Bool.not_eq_true] at h3
            simp only [runAux, h1, h2, hok, h3, Bool.false_eq_true,
              if_false] at h ⊢
            have hr2 : r2 = r := by simpa using h
            refine ⟨k, Nat.le_refl k, by simp, ?_, ?_⟩
            · exact bne_eq_false_iff_eq.mp h3
            · rw [hok, hr2]
        | failure e0 =>
          by_cases h4 : (errIsAbortCheck e0 || (w k).reqId != c
              || !(isRetryableError e0)) = true
          · simp only [runAux, h1, h2, hok, h4, Bool.false_eq_true, if_false,
              if_true] at h
            simp at h
          · rw [Bool.not_eq_true] at h4
            obtain ⟨hAB, hC⟩ := Bool.or_eq_false_iff.mp h4
            obtain ⟨hA, hB⟩ := Bool.or_eq_false_iff.mp hAB
            have hC2 : isRetryableError e0 = true := by simpa using hC
            by_cases h5 : f = 0
            · simp only [runAux, h1, h2, hok, hA, hB, hC2, h5,
                Bool.not_true, Bool.or_self, Bool.false_eq_true, if_false,
                beq_self_eq_true, if_true] at h
              simp at h
            · have h5b : (f == 0) = false := by simp [h5]
              by_cases h6 : (v k).curAborted = true
              · simp only [runAux, h1, h2, hok, hA, hB, hC2, h5b, h6,
                  Bool.not_true, Bool.or_self, Bool.false_eq_true, if_false,
                  if_true] at h
                simp at h
              · rw [Bool.not_eq_true] at h6
                simp only [runAux, h1, h2, hok, hA, hB, hC2, h5b, h6,
                  Bool.not_true, Bool.or_self, Bool.false_eq_true,
                  if_false] at h ⊢
                obtain ⟨j, hj1, hj2, hj3, hj4⟩ := ih (k + 1) (att + 1)
                  (v k) (ws ++ [k]) (some e0) h
                refine ⟨j, by omega, ?_, hj3, hj4⟩
                rw [hj2]
                omega

/-- C7: with every attempt failing with a retryable, non-abort error and the
client state undisturbed, `generateWithRetry(request, maxAttempts)` issues
exactly `maxAttempts` backend attempts, starts a backoff wait after every
attempt except the last, and settles by throwing the last attempt's error;
and a failure classified non-retryable settles the call at the attempt that
raised it, with no further attempts and no further waits. -/
theorem c7_retry_policy :
    (∀ (c maxAttempts : Nat) (o : Nat → BackendOutcome) (w v : Nat → World)
        (e : Nat → GenError),
      1 ≤ maxAttempts →
      (∀ i, o i = .failure (e i)) →
      (∀ i, errIsAbortCheck (e i) = false) →
      (∀ i, isRetryableError (e i) = true) →
      (∀ i, w i = ⟨c, false⟩ ∧ v i = ⟨c, false⟩) →
      generateWithRetryRun c maxAttempts o w v
        = ⟨.thrown (e maxAttempts), maxAttempts,
            List.range' 1 (maxAttempts - 1)⟩)
    ∧ (∀ (c maxAttempts : Nat) (o : Nat → BackendOutcome) (w v : Nat → World)
        (e : Nat → GenError) (j : Nat),
      1 ≤ j → j ≤ maxAttempts →
      (∀ i, 1 ≤ i → i < j → o i = .failure (e i)) →
      (∀ i, 1 ≤ i → i < j → errIsAbortCheck (e i) = false) →
      (∀ i, 1 ≤ i → i < j → isRetryableError (e i) = true) →
      (∀ i, 1 ≤ i → i ≤ j → w i = ⟨c, false⟩ ∧ v i = ⟨c, false⟩) →
      o j = .failure (e j) → errIsAbortCheck (e j) = false →
      isRetryableError (e j) = false →
      generateWithRetryRun c maxAttempts o w v
        = ⟨.thrown (e j), j, List.range' 1 (j - 1)⟩) := by
  constructor
  · intro c maxAttempts o w v e hmax ho ha hr hw
    rw [generateWithRetryRun]
    obtain ⟨le2, hadv⟩ := runAux_advance c o w v e (maxAttempts - 1) 1
      maxAttempts 0 [] none (fun i _ _ => ho i) (fun i _ _ => ha i)
      (fun i _ _ => hr i) (fun i _ _ => hw i) (by omega)
    rw [hadv]
    have h1 : maxAttempts - (maxAttempts - 1) = 0 + 1 := by omega
    have h2 : 1 + (maxAttempts - 1) = maxAttempts := by omega
    rw [h1, h2, runAux]
    simp only [bne_self_eq_false, Bool.false_eq_true, if_false,
      ho maxAttempts, ha maxAttempts, hr maxAttempts,
      (hw maxAttempts).1, Bool.not_true, Bool.or_self, Bool.false_or,
      Bool.or_false, beq_self_eq_true, if_true]
    have h3 : 0 + (maxAttempts - 1) + 1 = maxAttempts := by omega
    rw [h3]
    simp
  · intro c maxAttempts o w v e j hj hjm ho ha hr hw hoj haj hrj
    rw [generateWithRetryRun]
    obtain ⟨le2, hadv⟩ := runAux_advance c o w v e (j - 1) 1 maxAttempts 0 []
      none (fun i h1 h2 => ho i (by omega) (by omega))
      (fun i h1 h2 => ha i (by omega) (by omega))
      (fun i h1 h2 => hr i (by omega) (by omega))
      (fun i h1 h2 => hw i (by omega) (by omega)) (by omega)
    rw [hadv]
    have h2 : 1 + (j - 1) = j := by omega
    obtain ⟨f, hf⟩ : ∃ f, maxAttempts - (j - 1) = f + 1 :=
      ⟨maxAttempts - j, by omega⟩
    rw [h2, hf, runAux]
    simp only [bne_self_eq_false, Bool.false_eq_true, if_false, hoj, haj,
      hrj, (hw j hj (Nat.le_refl j)).1, Bool.not_false, Bool.or_true, if_true]
    have h3 : 0 + (j - 1) + 1 = j := by omega
    rw [h3]
    simp

/-- Retryable error used by the C7 witness (the mock backend's overloaded
error). -/
def overloadedErr : GenError :=
  .namedError "Error" "Model overloaded. Please try again."

/-- Non-retryable error used by witnesses. -/
def validationErr : GenError := .validationError "Invalid input"

theorem c7_retry_policy_witness :
    (1 : Nat) ≤ 2
    ∧ isRetryableError overloadedErr = true
    ∧ isRetryableError validationErr = false
    ∧ generateWithRetryRun 1 2 (fun _ => .failure overloadedErr)
        (fun _ => ⟨1, false⟩) (fun _ => ⟨1, false⟩)
      = ⟨.thrown overloadedErr, 2, List.range' 1 1⟩
    ∧ generateWithRetryRun 1 2 (fun _ => .failure validationErr)
        (fun _ => ⟨1, false⟩) (fun _ => ⟨1, false⟩)
      = ⟨.thrown validationErr, 1, List.range' 1 0⟩ :=
  ⟨by decide, by decide, by decide,
   c7_retry_policy.1 1 2 (fun _ => .failure overloadedErr)
     (fun _ => ⟨1, false⟩) (fun _ => ⟨1, false⟩) (fun _ => overloadedErr)
     (by decide) (fun _ => rfl) (fun _ => rfl) (fun _ => rfl)
     (fun _ => ⟨rfl, rfl⟩),
   c7_retry_policy.2 1 2 (fun _ => .failure validationErr)
     (fun _ => ⟨1, false⟩) (fun _ => ⟨1, false⟩) (fun _ => validationErr) 1
     (by decide) (by decide) (fun i h1 h2 => absurd h2 (by omega))
     (fun i h1 h2 => absurd h2 (by omega))
     (fun i h1 h2 => absurd h2 (by omega))
     (fun i _ _ => ⟨rfl, rfl⟩) rfl rfl (by decide)⟩

/-- C1 (amended): a call can only settle successfully if, in the turn its
successful attempt is processed, its captured sequence number still equals
the orchestrator's current sequence number; and a call whose attempt's
backend step returned success after a newer submission bumped the sequence
number settles by throwing `AbortError` (`Cancelled`).  (The original claim's
stronger reading — that every superseded call resolves as `Cancelled` — fails
when the superseded call's current attempt itself failed; see the
counterexample.) -/
theorem c1_only_current_seq_succeeds :
    (∀ (c maxAttempts : Nat) (o : Nat → BackendOutcome) (w v : Nat → World)
        (r : GenerateResponse),
      (generateWithRetryRun c maxAttempts o w v).outcome = .ok r →
      (w (generateWithRetryRun c maxAttempts o w v).attempts).reqId = c
      ∧ o (generateWithRetryRun c maxAttempts o w v).attempts = .success r)
    ∧ (∀ (c maxAttempts : Nat) (o : Nat → BackendOutcome) (w v : Nat → World)
        (e : Nat → GenError) (r : GenerateResponse) (k : Nat),
      1 ≤ k → k ≤ maxAttempts →
      (∀ i, 1 ≤ i → i < k → o i = .failure (e i)) →
      (∀ i, 1 ≤ i → i < k → errIsAbortCheck (e i) = false) →
      (∀ i, 1 ≤ i → i < k → isRetryableError (e i) = true) →
      (∀ i, 1 ≤ i → i < k → w i = ⟨c, false⟩ ∧ v i = ⟨c, false⟩) →
      o k = .success r → (w k).reqId ≠ c →
      generateWithRetryRun c maxAttempts o w v
        = ⟨.thrown .abortError, k, List.range' 1 (k - 1)⟩) := by
  constructor
  · intro c maxAttempts o w v r h
    obtain ⟨j, hj1, hj2, hj3, hj4⟩ := runAux_ok c o w v r maxAttempts 1 0
      ⟨c, false⟩ [] none h
    have hj : (generateWithRetryRun c maxAttempts o w v).attempts = j := by
      rw [generateWithRetryRun, hj2]
      omega
    rw [hj]
    exact ⟨hj3, hj4⟩
  · intro c maxAttempts o w v e r k hk hkm ho ha hr hw hok hneq
    rw [generateWithRetryRun]
    obtain ⟨le2, hadv⟩ := runAux_advance c o w v e (k - 1) 1 maxAttempts 0 []
      none (fun i h1 h2 => ho i (by omega) (by omega))
      (fun i h1 h2 => ha i (by omega) (by omega))
      (fun i h1 h2 => hr i (by omega) (by omega))
      (fun i h1 h2 => hw i (by omega) (by omega)) (by omega)
    rw [hadv]
    have h2 : 1 + (k - 1) = k := by omega
    obtain ⟨f, hf⟩ : ∃ f, maxAttempts - (k - 1) = f + 1 :=
      ⟨maxAttempts - k, by omega⟩
    rw [h2, hf, runAux]
    have hbne : ((w k).reqId != c) = true := by simpa using hneq
    simp only [bne_self_eq_false, Bool.false_eq_true, if_false, hok, hbne,
      if_true]
    have h3 : 0 + (k - 1) + 1 = k := by omega
    rw [h3]
    simp

/-- Response used by witnesses. -/
def sampleResponse : GenerateResponse :=
  ⟨"gen1", "https://example.com/a.jpg", "prompt", "editorial", "t0"⟩

theorem c1_only_current_seq_succeeds_witness :
    (generateWithRetryRun 1 3 (fun _ => .success sampleResponse)
        (fun _ => ⟨1, false⟩) (fun _ => ⟨1, false⟩)).outcome
      = .ok sampleResponse
    ∧ ((fun _ => (⟨1, false⟩ : World))
        (generateWithRetryRun 1 3 (fun _ => .success sampleResponse)
          (fun _ => ⟨1, false⟩) (fun _ => ⟨1, false⟩)).attempts).reqId = 1
    ∧ generateWithRetryRun 1 3 (fun _ => .success sampleResponse)
        (fun _ => ⟨2, false⟩) (fun _ => ⟨2, false⟩)
      = ⟨.thrown .abortError, 1, List.range' 1 0⟩ :=
  ⟨by decide,
   (c1_only_current_seq_succeeds.1 1 3 (fun _ => .success sampleResponse)
     (fun _ => ⟨1, false⟩) (fun _ => ⟨1, false⟩) sampleResponse
     (by decide)).1,
   c1_only_current_seq_succeeds.2 1 3 (fun _ => .success sampleResponse)
     (fun _ => ⟨2, false⟩) (fun _ => ⟨2, false⟩) (fun _ => unknownError)
     sampleResponse 1 (by decide) (by decide)
     (fun i h1 h2 => absurd h2 (by omega))
     (fun i h1 h2 => absurd h2 (by omega))
     (fun i h1 h2 => absurd h2 (by omega))
     (fun i h1 h2 => absurd h2 (by omega)) rfl (by decide)⟩

/-- C1 counterexample: submission with captured sequence number 1 whose first
attempt fails with the retryable overloaded error while a newer submission
has already bumped the sequence number to 2 (before any commit).  The claim
requires the superseded call to resolve as `Cancelled`; the code rethrows the
attempt's own error from the `catch` supersession check, so the call settles
with the overloaded error, not `AbortError`. -/
theorem c1_counterexample :
    (generateWithRetryRun 1 3 (fun _ => .failure overloadedErr)
        (fun _ => ⟨2, false⟩) (fun _ => ⟨2, false⟩)).outcome
      = .thrown overloadedErr
    ∧ (generateWithRetryRun 1 3 (fun _ => .failure overloadedErr)
        (fun _ => ⟨2, false⟩) (fun _ => ⟨2, false⟩)).outcome
      ≠ .thrown .abortError
    ∧ ∀ r, (generateWithRetryRun 1 3 (fun _ => .failure overloadedErr)
        (fun _ => ⟨2, false⟩) (fun _ => ⟨2, false⟩)).outcome ≠ .ok r := by
  refine ⟨by decide, by decide, ?_⟩
  intro r
  have h : (generateWithRetryRun 1 3 (fun _ => .failure overloadedErr)
      (fun _ => ⟨2, false⟩) (fun _ => ⟨2, false⟩)).outcome
      = .thrown overloadedErr := by decide
  rw [h]
  simp

/-- C8: if cancellation is observed before the call settles — the abort
signal interrupting the in-flight attempt (which then raises `AbortError`),
or the abort event firing during a backoff wait — the call settles by
throwing `AbortError` (`Cancelled`) at that point, issuing no further backend
attempts.  (The real-time promptness of the settlement is outside this
untimed model.) -/
theorem c8_cancel_resolves_cancelled :
    (∀ (c maxAttempts : Nat) (o : Nat → BackendOutcome) (w v : Nat → World)
        (e : Nat → GenError) (k : Nat),
      1 ≤ k → k ≤ maxAttempts →
      (∀ i, 1 ≤ i → i < k → o i = .failure (e i)) →
      (∀ i, 1 ≤ i → i < k → errIsAbortCheck (e i) = false) →
      (∀ i, 1 ≤ i → i < k → isRetryableError (e i) = true) →
      (∀ i, 1 ≤ i → i < k → w i = ⟨c, false⟩ ∧ v i = ⟨c, false⟩) →
      o k = .failure .abortError →
      generateWithRetryRun c maxAttempts o w v
        = ⟨.thrown .abortError, k, List.range' 1 (k - 1)⟩)
    ∧ (∀ (c maxAttempts : Nat) (o : Nat → BackendOutcome) (w v : Nat → World)
        (e : Nat → GenError) (k : Nat),
      1 ≤ k → k < maxAttempts →
      (∀ i, 1 ≤ i → i < k → o i = .failure (e i)) →
      (∀ i, 1 ≤ i → i < k → errIsAbortCheck (e i) = false) →
      (∀ i, 1 ≤ i → i < k → isRetryableError (e i) = true) →
      (∀ i, 1 ≤ i → i < k → w i = ⟨c, false⟩ ∧ v i = ⟨c, false⟩) →
      o k = .failure (e k) → errIsAbortCheck (e k) = false →
      isRetryableError (e k) = true → w k = ⟨c, false⟩ →
      (v k).curAborted = true →
      generateWithRetryRun c maxAttempts o w v
        = ⟨.thrown .abortError, k, List.range' 1 k⟩) := by
  constructor
  · intro c maxAttempts o w v e k hk hkm ho ha hr hw hok
    rw [generateWithRetryRun]
    obtain ⟨le2, hadv⟩ := runAux_advance c o w v e (k - 1) 1 maxAttempts 0 []
      none (fun i h1 h2 => ho i (by omega) (by omega))
      (fun i h1 h2 => ha i (by omega) (by omega))
      (fun i h1 h2 => hr i (by omega) (by omega))
      (fun i h1 h2 => hw i (by omega) (by omega)) (by omega)
    rw [hadv]
    have h2 : 1 + (k - 1) = k := by omega
    obtain ⟨f, hf⟩ : ∃ f, maxAttempts - (k - 1) = f + 1 :=
      ⟨maxAttempts - k, by omega⟩
    rw [h2, hf, runAux]
    have habort : errIsAbortCheck .abortError = true := rfl
    simp only [bne_self_eq_false, Bool.false_eq_true, if_false, hok, habort,
      Bool.true_or, if_true]
    have h3 : 0 + (k - 1) + 1 = k := by omega
    rw [h3]
    simp
  · intro c maxAttempts o w v e k hk hkm ho ha hr hw hok hak hrk hwk hvk
    rw [generateWithRetryRun]
    obtain ⟨le2, hadv⟩ := runAux_advance c o w v e (k - 1) 1 maxAttempts 0 []
      none (fun i h1 h2 => ho i (by omega) (by omega))
      (fun i h1 h2 => ha i (by omega) (by omega))
      (fun i h1 h2 => hr i (by omega) (by omega))
      (fun i h1 h2 => hw i (by omega) (by omega)) (by omega)
    rw [hadv]
    have h2 : 1 + (k - 1) = k := by omega
    obtain ⟨f, hf⟩ : ∃ f, maxAttempts - (k - 1) = f + 1 ∧ f ≠ 0 :=
      ⟨maxAttempts - k, by omega, by omega⟩
    rw [h2, hf.1, runAux]
    have hf0 : (f == 0) = false := by simp [hf.2]
    simp only [bne_self_eq_false, Bool.false_eq_true, if_false, hok, hak,
      hrk, hwk, hvk, hf0, Bool.not_true, Bool.or_self, Bool.false_or,
      Bool.or_false, if_true]
    have h3 : 0 + (k - 1) + 1 = k := by omega
    have h4 : ([] ++ List.range' 1 (k - 1)) ++ [k]
        = List.range' 1 k := by
      rw [List.nil_append]
      have h5 : [k] = List.range' (1 + (k - 1)) 1 := by
        rw [List.range'_one, h2]
      rw [h5, List.range'_append_1]
      congr 1
    rw [h3, h4]

theorem c8_cancel_resolves_cancelled_witness :
    generateWithRetryRun 1 3 (fun _ => .failure .abortError)
        (fun _ => ⟨1, false⟩) (fun _ => ⟨1, false⟩)
      = ⟨.thrown .abortError, 1, List.range' 1 0⟩
    ∧ generateWithRetryRun 1 3 (fun _ => .failure overloadedErr)
        (fun _ => ⟨1, false⟩) (fun _ => ⟨1, true⟩)
      = ⟨.thrown .abortError, 1, List.range' 1 1⟩ :=
  ⟨c8_cancel_resolves_cancelled.1 1 3 (fun _ => .failure .abortError)
     (fun _ => ⟨1, false⟩) (fun _ => ⟨1, false⟩) (fun _ => unknownError) 1
     (by decide) (by decide) (fun i h1 h2 => absurd h2 (by omega))
     (fun i h1 h2 => absurd h2 (by omega))
     (fun i h1 h2 => absurd h2 (by omega))
     (fun i h1 h2 => absurd h2 (by omega)) rfl,
   c8_cancel_resolves_cancelled.2 1 3 (fun _ => .failure overloadedErr)
     (fun _ => ⟨1, false⟩) (fun _ => ⟨1, true⟩) (fun _ => overloadedErr) 1
     (by decide) (by decide) (fun i h1 h2 => absurd h2 (by omega))
     (fun i h1 h2 => absurd h2 (by omega))
     (fun i h1 h2 => absurd h2 (by omega))
     (fun i h1 h2 => absurd h2 (by omega)) rfl rfl (by decide) rfl rfl⟩

/-- C9: for every attempt `k ≥ 1` and every random draw `r ∈ [0,1)`, the
backoff delay equals `min(max(2^(k-1)*1000 + jitter, 100), 10000)` where the
jitter `2^(k-1)*1000 * 0.25 * (2r - 1)` lies within plus-or-minus 25 percent
of the base delay; in particular the delay is always between 100 and 10000
milliseconds inclusive. -/
theorem c9_backoff_formula (k : Nat) (r : ℚ) (_hk : 1 ≤ k) (h0 : 0 ≤ r)
    (h1 : r < 1) :
    calculateBackoffWithJitter k r
      = min (max ((2 ^ (k - 1) * 1000 : ℚ)
          + (2 ^ (k - 1) * 1000 : ℚ) * (1/4) * (r * 2 - 1)) 100) 10000
    ∧ |(2 ^ (k - 1) * 1000 : ℚ) * (1/4) * (r * 2 - 1)|
      ≤ (2 ^ (k - 1) * 1000 : ℚ) * (1/4)
    ∧ 100 ≤ calculateBackoffWithJitter k r
    ∧ calculateBackoffWithJitter k r ≤ 10000 := by
  refine ⟨rfl, ?_, ?_, ?_⟩
  · have hbase : (0 : ℚ) ≤ 2 ^ (k - 1) * 1000 * (1/4) := by positivity
    rw [abs_mul, abs_of_nonneg hbase]
    have habs2 : |r * 2 - 1| ≤ 1 := abs_le.mpr ⟨by linarith, by linarith⟩
    calc (2 ^ (k - 1) * 1000 : ℚ) * (1/4) * |r * 2 - 1|
        ≤ (2 ^ (k - 1) * 1000 : ℚ) * (1/4) * 1 :=
          mul_le_mul_of_nonneg_left habs2 hbase
      _ = (2 ^ (k - 1) * 1000 : ℚ) * (1/4) := by ring
  · simp only [calculateBackoffWithJitter]
    exact le_min (le_max_right _ _) (by norm_num)
  · simp only [calculateBackoffWithJitter]
    exact min_le_right _ _

theorem c9_backoff_formula_witness :
    (1 : Nat) ≤ 2 ∧ (0 : ℚ) ≤ 1/2 ∧ (1/2 : ℚ) < 1
    ∧ (calculateBackoffWithJitter 2 (1/2)
        = min (max ((2 ^ (2 - 1) * 1000 : ℚ)
            + (2 ^ (2 - 1) * 1000 : ℚ) * (1/4) * ((1/2) * 2 - 1)) 100) 10000
      ∧ |(2 ^ (2 - 1) * 1000 : ℚ) * (1/4) * ((1/2) * 2 - 1)|
          ≤ (2 ^ (2 - 1) * 1000 : ℚ) * (1/4)
      ∧ 100 ≤ calculateBackoffWithJitter 2 (1/2)
      ∧ calculateBackoffWithJitter 2 (1/2) ≤ 10000) :=
  ⟨by decide, by norm_num, by norm_num,
   c9_backoff_formula 2 (1/2) (by decide) (by norm_num) (by norm_num)⟩

/-- C10 (amended): `isActive()` (`isGenerating`) is false before any
submission, becomes true when a submission starts, and becomes false when
`abort()` is called; settlement of the request does not modify the
controller, so `isActive()` stays true after an un-aborted request
resolves. -/
theorem c10_isActive_amended :
    isGenerating none = false
    ∧ (∀ st : CtrlState, isGenerating (submitStartCtrl st) = true)
    ∧ (∀ st : CtrlState, isGenerating (abortCtrl st) = false)
    ∧ (∀ st : CtrlState, resolveCtrl st = st) := by
  refine ⟨rfl, fun _ => rfl, fun st => ?_, fun _ => rfl⟩
  cases st <;> rfl

/-- C10 counterexample: after a submission starts and then settles without
`abort()` being called, the claim requires `isActive()` to be false; the code
still reports true, because settlement neither clears nor aborts the
controller. -/
theorem c10_counterexample :
    isGenerating (resolveCtrl (submitStartCtrl none)) ≠ false := by decide

end AIStudio
